import Mathlib

/-!
Verification development for the Black Synapse ingestion worker.

The definitions below are a shallow embedding of the Python sources:
  worker/app/utils.py     (chunk_text, get_embedding, validate_document_payload)
  worker/app/pipeline.py  (IngestionPipeline: hash skip, logging, dual write)
  worker/app/main.py      (reindex endpoint)

External libraries (tiktoken, hashlib, datetime.fromisoformat) are modelled
as explicit function parameters; store and provider I/O is modelled by an
environment record that says how each external call answers, and the two
stores are an explicit state record threaded through the pipeline.
Document text inside the chunker is modelled as List Char so that Python's
character-index slicing and trimming are exact.
-/

/-- Python str whitespace set used by str.strip (utils.py relies on it). -/
def pyIsSpace (c : Char) : Bool :=
  c = ' ' || c = '\t' || c = '\n' || c = '\r' || c = '\x0b' || c = '\x0c'

/-- Remove leading Python-whitespace characters. -/
def pyStripLeft : List Char → List Char
  | [] => []
  | c :: cs => if pyIsSpace c then pyStripLeft cs else c :: cs

/-- Python's str.strip(): drop whitespace on both ends. -/
def pyStrip (s : List Char) : List Char :=
  (pyStripLeft ((pyStripLeft s).reverse)).reverse

/-- Index of the first occurrence of a character, Python str.find style. -/
def pyFindCh (c : Char) : List Char → Option Nat
  | [] => none
  | d :: ds => if d = c then some 0 else (pyFindCh c ds).map (· + 1)

/-- Index of the last occurrence of a character, Python str.rfind style. -/
def pyRFindCh (c : Char) (s : List Char) : Option Nat :=
  (pyFindCh c s.reverse).map (fun i => s.length - 1 - i)

/-- utils.py chunk_text: for a window that is not the first, drop the part
before (and including) the first space, but only when the first space is at
a positive index (`if first_space > 0`). -/
def dropLeadingWord (s : List Char) : List Char :=
  match pyFindCh ' ' s with
  | some i => if 0 < i then s.drop (i + 1) else s
  | none => s

/-- utils.py chunk_text: for a window that is not the last, keep only the
part before the last space, but only when the last space is at a positive
index (`if last_space > 0`). -/
def dropTrailingWord (s : List Char) : List Char :=
  match pyRFindCh ' ' s with
  | some i => if 0 < i then s.take i else s
  | none => s

/-- Python list index normalisation: negative indices count from the end,
and indices are clamped into [0, len]. -/
def pyIdx (len : Nat) (i : Int) : Nat :=
  if i < 0 then ((len : Int) + i).toNat else min i.toNat len

/-- Python slice l[a:b] with Int endpoints. -/
def pySlice (l : List Nat) (a b : Int) : List Nat :=
  (l.take (pyIdx l.length b)).drop (pyIdx l.length a)

/-- The tiktoken encoder, abstract: utils.py only calls encode and decode. -/
structure Tokenizer where
  encode : List Char → List Nat
  decode : List Nat → List Char

/-- A chunk dictionary produced by chunk_text: keys "text" and "token_count". -/
structure Passage where
  text : List Char
  token_count : Nat
deriving DecidableEq, Repr

/-- The loop body of utils.py chunk_text up to the trimming steps: slice the
token window tokens[start : min(start+max, len)], decode it, and trim a
leading word fragment (windows other than the first) and a trailing word
fragment (windows other than the last). -/
def chunkCand (tok : Tokenizer) (tokens : List Nat) (maxTokens : Nat) (start : Int) :
    List Char :=
  if min (start + (maxTokens : Int)) (tokens.length : Int) < (tokens.length : Int) then
    dropTrailingWord (if 0 < start then
      dropLeadingWord (tok.decode (pySlice tokens start
        (min (start + (maxTokens : Int)) (tokens.length : Int))))
      else tok.decode (pySlice tokens start
        (min (start + (maxTokens : Int)) (tokens.length : Int))))
  else (if 0 < start then
      dropLeadingWord (tok.decode (pySlice tokens start
        (min (start + (maxTokens : Int)) (tokens.length : Int))))
      else tok.decode (pySlice tokens start
        (min (start + (maxTokens : Int)) (tokens.length : Int))))

/-- The conditional append of the loop body: a chunk dict is emitted only
when the stripped window text is non-empty, carrying the stripped text and
the re-encoded token count of the (unstripped) trimmed text. -/
def chunkAppend (tok : Tokenizer) (tokens : List Nat) (maxTokens : Nat) (start : Int)
    (acc : List Passage) : List Passage :=
  if pyStrip (chunkCand tok tokens maxTokens start) = [] then acc
  else acc ++ [⟨pyStrip (chunkCand tok tokens maxTokens start),
    (tok.encode (chunkCand tok tokens maxTokens start)).length⟩]

/-- One pass through the while-loop of utils.py chunk_text: either the loop
finishes (.inl, via the break `start >= len(tokens) - overlap_tokens` or the
failed loop condition `start < len(tokens)`) with its chunk list, or it
continues (.inr) with the next start offset and chunk list. The loop
variable `start` is an Int because Python lets `start = end - overlap_tokens`
go negative. -/
def chunkIter (tok : Tokenizer) (tokens : List Nat) (maxTokens overlapTokens : Nat)
    (start : Int) (acc : List Passage) : (List Passage) ⊕ (Int × List Passage) :=
  if start < (tokens.length : Int) then
    if (tokens.length : Int) - (overlapTokens : Int) ≤
        min (start + (maxTokens : Int)) (tokens.length : Int) - (overlapTokens : Int) then
      .inl (chunkAppend tok tokens maxTokens start acc)
    else
      .inr (min (start + (maxTokens : Int)) (tokens.length : Int) - (overlapTokens : Int),
        chunkAppend tok tokens maxTokens start acc)
  else .inl acc

/-- The while-loop of utils.py chunk_text, with explicit fuel; `none` means
the fuel ran out, i.e. that many iterations did not reach a loop exit. -/
def chunkLoop (tok : Tokenizer) (tokens : List Nat) (maxTokens overlapTokens : Nat) :
    Nat → Int → List Passage → Option (List Passage)
  | 0, start, acc =>
    match chunkIter tok tokens maxTokens overlapTokens start acc with
    | .inl res => some res
    | .inr _ => none
  | fuel + 1, start, acc =>
    match chunkIter tok tokens maxTokens overlapTokens start acc with
    | .inl res => some res
    | .inr p => chunkLoop tok tokens maxTokens overlapTokens fuel p.1 p.2

/-- utils.py chunk_text. Empty/whitespace text gives []; short text gives a
single chunk carrying the whole text; otherwise the sliding-window loop runs.
The fuel tokens.length + 1 is enough for every terminating run of the Python
loop, so a `none` result means the Python loop does not terminate. -/
def chunk_text (tok : Tokenizer) (text : List Char)
    (maxTokens : Nat := 500) (overlapTokens : Nat := 50) : Option (List Passage) :=
  if pyStrip text = [] then some []
  else
    let tokens := tok.encode text
    if tokens.length ≤ maxTokens then some [⟨text, tokens.length⟩]
    else chunkLoop tok tokens maxTokens overlapTokens (tokens.length + 1) 0 []

/-- A concrete tokenizer instance for evaluating the model: one token per
character. It satisfies the substring re-encoding bound assumed of tiktoken. -/
def charTok : Tokenizer where
  encode s := s.map Char.toNat
  decode ts := ts.map Char.ofNat

/-! ## Embedding client (utils.py get_embedding) -/

instance {ε α : Type} [DecidableEq ε] [DecidableEq α] : DecidableEq (Except ε α) := fun a b =>
  match a, b with
  | .error x, .error y =>
    if h : x = y then .isTrue (by rw [h]) else .isFalse (by simp [h])
  | .ok x, .ok y =>
    if h : x = y then .isTrue (by rw [h]) else .isFalse (by simp [h])
  | .error _, .ok _ => .isFalse (by simp)
  | .ok _, .error _ => .isFalse (by simp)

/-- Outcome of one get_embedding call: the returned value or the raised
exception, plus the warning messages that were logged. -/
structure EmbedOutcome where
  result : Except String (List (List Int))
  warnings : List String
deriving DecidableEq, Repr

/-- The expected_dims dictionary literal in utils.py. -/
def expected_dims (model : String) : Option Nat :=
  if model = "text-embedding-3-small" then some 1536
  else if model = "text-embedding-3-large" then some 3072
  else none

/-- The `for i, emb in enumerate(embeddings)` loop of get_embedding: index
of the first embedding whose length differs from dim, None when all match. -/
def firstDimMismatch (dim : Nat) : List (List Int) → Option Nat
  | [] => none
  | e :: es => if e.length ≠ dim then some 0 else (firstDimMismatch dim es).map (· + 1)

/-- utils.py get_embedding. The provider call is modelled by providerResp:
either the list of embeddings the API answered with or the exception the
call raised. Empty input returns [] before any provider interaction.
Vector entries are opaque (Int stands for the JSON numbers). -/
def get_embedding {τ : Type} (texts : List τ)
    (providerResp : Except String (List (List Int))) (model : String) : EmbedOutcome :=
  if texts.isEmpty then ⟨.ok [], []⟩
  else
    match providerResp with
    | .error e => ⟨.error e, []⟩
    | .ok embeddings =>
      if embeddings.length ≠ texts.length then
        ⟨.error "Embedding count mismatch", []⟩
      else
        match embeddings with
        | [] => ⟨.ok [], []⟩
        | e0 :: _ =>
          let warns :=
            match expected_dims model with
            | some d => if e0.length ≠ d then ["Unexpected embedding dimension"] else []
            | none => []
          match firstDimMismatch e0.length embeddings with
          | some _ => ⟨.error "Embedding dimension mismatch", warns⟩
          | none => ⟨.ok embeddings, warns⟩

/-! ## Pipeline data model (pipeline.py / main.py) -/

/-- A row of the documents table (processed_at is wall-clock and not modelled). -/
structure DocRecord where
  doc_id : String
  source : String
  title : String
  uri : String
  author : String
  created_at : String
  updated_at : String
  content_hash : String
  chunk_count : Nat
  is_deleted : Bool
deriving DecidableEq, Repr

/-- A row of the ingestion_log table (timestamp and JSON metadata not modelled). -/
structure LogEntry where
  doc_id : String
  event_type : String
  message : String
deriving DecidableEq, Repr

/-- The payload stored with each Qdrant point. -/
structure PointPayload where
  source : String
  doc_id : String
  chunk_index : Nat
  title : String
  uri : String
  author : String
  created_at : String
  updated_at : String
  text : List Char
deriving DecidableEq, Repr

/-- A Qdrant point. -/
structure Point where
  id : String
  vector : List Int
  payload : PointPayload
deriving DecidableEq, Repr

/-- Combined durable state: the Postgres tables and the Qdrant collection. -/
structure StoreState where
  documents : List DocRecord
  ingestion_log : List LogEntry
  points : List Point
deriving DecidableEq, Repr

/-- The DocumentPayload schema of main.py. -/
structure Document where
  doc_id : String
  source : String
  title : String
  uri : String
  text : String
  author : String
  created_at : String
  updated_at : String
deriving DecidableEq, Repr

/-- The object handed to process_document: either a DocumentPayload (the
ingest route) or a plain dict (the reindex route passes the row returned by
get_document_by_id). -/
inductive PyDoc where
  | payload (d : Document)
  | dict (fields : List (String × String))
deriving DecidableEq, Repr

/-- Python attribute access `document.attr`. Attribute access on a dict
always raises AttributeError, whatever keys the dict has. -/
def pyAttr : PyDoc → String → Except String String
  | .payload d, a =>
    if a = "doc_id" then .ok d.doc_id
    else if a = "source" then .ok d.source
    else if a = "title" then .ok d.title
    else if a = "uri" then .ok d.uri
    else if a = "text" then .ok d.text
    else if a = "author" then .ok d.author
    else if a = "created_at" then .ok d.created_at
    else if a = "updated_at" then .ok d.updated_at
    else .error ("AttributeError: 'DocumentPayload' object has no attribute '" ++ a ++ "'")
  | .dict _, a => .error ("AttributeError: 'dict' object has no attribute '" ++ a ++ "'")

/-- How the external world answers each call of one pipeline invocation.
A `some err` / `.error err` field means the corresponding store or provider
call raises; log-write failures are a Bool because pipeline.py swallows them. -/
structure Env where
  lookupOk : Bool
  logOk : Bool
  providerResp : Except String (List (List Int))
  upsertErr : Option String
  metaWriteErr : Option String
  getDocOk : Bool
deriving DecidableEq, Repr

/-- Pipeline configuration (the embedding model chosen in __init__). -/
structure PipelineCfg where
  embedding_model : String
deriving DecidableEq, Repr

/-- SQL `SELECT ... FROM documents WHERE doc_id = %s` (first row). -/
def findDocRecord (docs : List DocRecord) (did : String) : Option DocRecord :=
  docs.find? (fun r => r.doc_id == did)

/-- pipeline.py _is_document_unchanged: true only when the select succeeds,
returns a row, and its content_hash equals the new hash; any exception is
swallowed and the function answers false. -/
def is_document_unchanged (env : Env) (st : StoreState) (did hash : String) : Bool :=
  if env.lookupOk then
    match findDocRecord st.documents did with
    | some r => r.content_hash == hash
    | none => false
  else false

/-- pipeline.py _log_ingestion_event: append to ingestion_log; an insert
failure is caught and swallowed, leaving the log unchanged. -/
def log_ingestion_event (env : Env) (st : StoreState) (did etype msg : String) : StoreState :=
  if env.logOk then { st with ingestion_log := st.ingestion_log ++ [⟨did, etype, msg⟩] }
  else st

/-- SQL upsert of one documents row (ON CONFLICT (doc_id) DO UPDATE). -/
def upsertRecord (docs : List DocRecord) (r : DocRecord) : List DocRecord :=
  if docs.any (fun d => d.doc_id == r.doc_id) then
    docs.map (fun d => if d.doc_id == r.doc_id then r else d)
  else docs ++ [r]

/-- pipeline.py _update_document_metadata: upsert the row with the new hash
and chunk count, is_deleted reset to false; a write failure raises. -/
def update_document_metadata (env : Env) (st : StoreState) (d : Document)
    (hash : String) (chunkCount : Nat) : Except String StoreState :=
  match env.metaWriteErr with
  | some e => .error e
  | none =>
    let row : DocRecord :=
      ⟨d.doc_id, d.source, d.title, d.uri, d.author, d.created_at, d.updated_at,
       hash, chunkCount, false⟩
    .ok { st with documents := upsertRecord st.documents row }

/-- The dict process_document returns: success flag, chunks_processed, and
either a message (success paths) or an error string (the except clause). -/
structure ProcResult where
  success : Bool
  chunks_processed : Nat
  message : Option String
  error : Option String
deriving DecidableEq, Repr

/-- Qdrant upsert of a single point: overwrite by id or append. -/
def upsertPoint (ps : List Point) (p : Point) : List Point :=
  if ps.any (fun q => q.id == p.id) then
    ps.map (fun q => if q.id == p.id then p else q)
  else ps ++ [p]

/-- Qdrant batch upsert. -/
def upsertPoints (ps news : List Point) : List Point :=
  news.foldl upsertPoint ps

/-- One PointStruct per (chunk, embedding) pair, id doc_id + "_" + index. -/
def buildPoints (d : Document) (chunks : List Passage) (embs : List (List Int)) : List Point :=
  (chunks.zip embs).enum.map (fun p =>
    ⟨d.doc_id ++ "_" ++ toString p.1, p.2.2,
     ⟨d.source, d.doc_id, p.1, d.title, d.uri, d.author, d.created_at, d.updated_at,
      p.2.1.text⟩⟩)

/-- What one run of process_document yields, before the outer except clause:
`.error (e, st)` is an exception raised at some step together with the store
state already committed at that point (partial writes are not rolled back),
`none` is a run on which chunk_text never terminates. -/
def processBody (hashFn : String → String) (tok : Tokenizer) (cfg : PipelineCfg)
    (env : Env) (document : PyDoc) (force_reindex : Bool) (st : StoreState) :
    Option (Except (String × StoreState) (ProcResult × StoreState)) :=
  match pyAttr document "text" with
  | .error e => some (.error (e, st))
  | .ok text =>
    let content_hash := hashFn text
    match pyAttr document "doc_id" with
    | .error e => some (.error (e, st))
    | .ok did =>
      if !force_reindex && is_document_unchanged env st did content_hash then
        let st1 := log_ingestion_event env st did "skipped"
          "Document content unchanged, skipping processing"
        some (.ok (⟨true, 0, some "Document unchanged, skipped processing", none⟩, st1))
      else
        match chunk_text tok text.toList 500 50 with
        | none => none
        | some chunks =>
          match (get_embedding (chunks.map Passage.text) env.providerResp
              cfg.embedding_model).result with
          | .error e => some (.error (e, st))
          | .ok embeddings =>
            match document with
            | .dict _ => some (.error ("AttributeError: 'dict' object has no attribute 'source'", st))
            | .payload d =>
              let points := buildPoints d chunks embeddings
              match env.upsertErr with
              | some e => some (.error (e, st))
              | none =>
                let st2 := { st with points := upsertPoints st.points points }
                match update_document_metadata env st2 d content_hash chunks.length with
                | .error e => some (.error (e, st2))
                | .ok st3 =>
                  let msg := "Successfully processed " ++ toString chunks.length ++ " chunks"
                  let st4 := log_ingestion_event env st3 did "processed" msg
                  some (.ok (⟨true, chunks.length, some msg, none⟩, st4))

/-- pipeline.py process_document: runs the body and applies the outer
`except Exception` clause, which logs an error event and converts the
exception into a structured failure value. The f-string in the handler
itself reads document.doc_id, so for a dict document that second
AttributeError escapes uncaught (`some (.error e)`). -/
def process_document (hashFn : String → String) (tok : Tokenizer) (cfg : PipelineCfg)
    (env : Env) (document : PyDoc) (force_reindex : Bool) (st : StoreState) :
    Option (Except String (ProcResult × StoreState)) :=
  match processBody hashFn tok cfg env document force_reindex st with
  | none => none
  | some (.ok out) => some (.ok out)
  | some (.error (e, stAt)) =>
    match pyAttr document "doc_id" with
    | .error e2 => some (.error e2)
    | .ok did =>
      let msg := "Failed to process document " ++ did ++ ": " ++ e
      let st2 := log_ingestion_event env stAt did "error" msg
      some (.ok (⟨false, 0, none, some msg⟩, st2))

/-- pipeline.py get_document_by_id: select the seven metadata columns of the
first non-deleted row for doc_id (the table has no text column); any
exception is swallowed and the function answers None. The row is returned as
a dict, modelled as a key/value list. -/
def get_document_by_id (env : Env) (st : StoreState) (did : String) :
    Option (List (String × String)) :=
  if env.getDocOk then
    match st.documents.find? (fun r => r.doc_id == did && !r.is_deleted) with
    | some r =>
      some [("doc_id", r.doc_id), ("source", r.source), ("title", r.title),
            ("uri", r.uri), ("author", r.author), ("created_at", r.created_at),
            ("updated_at", r.updated_at)]
    | none => none
  else none

/-- The IngestionResponse model of main.py. -/
structure IngestionResponse where
  success : Bool
  message : String
  doc_id : String
  chunks_processed : Nat
  error : Option String
deriving DecidableEq, Repr

/-- What the /reindex route hands back: a response body, an HTTPException
with a status code, or (diverge) a request that never finishes. -/
inductive ReindexOutcome where
  | response (r : IngestionResponse)
  | httpError (status : Nat) (detail : String)
  | diverge
deriving DecidableEq, Repr

/-- main.py reindex_document: look the document up, 404 when absent,
otherwise run process_document on the returned dict with force_reindex=True;
an exception escaping process_document hits the generic handler and becomes
a 500 response. -/
def reindex_document (hashFn : String → String) (tok : Tokenizer) (cfg : PipelineCfg)
    (env : Env) (did : String) (st : StoreState) : ReindexOutcome × StoreState :=
  match get_document_by_id env st did with
  | none => (.httpError 404 ("Document " ++ did ++ " not found"), st)
  | some fields =>
    match process_document hashFn tok cfg env (.dict fields) true st with
    | none => (.diverge, st)
    | some (.error e) => (.httpError 500 ("Re-indexing failed: " ++ e), st)
    | some (.ok (res, st')) =>
      if res.success then
        (.response ⟨true, "Document re-indexed successfully", did, res.chunks_processed, none⟩, st')
      else
        (.response ⟨false, "Document re-indexing failed", did, 0, res.error⟩, st')

/-! ## Vector-store bootstrap (pipeline.py _ensure_qdrant_collection) -/

/-- Observable outcome of the bootstrap retry loop: whether it returned or
raised, whether it created the collection, the number of the last attempt
made, and the sleep durations performed between attempts. -/
structure BootResult where
  ok : Bool
  created : Bool
  attemptsMade : Nat
  sleeps : List Nat
deriving DecidableEq, Repr

/-- The `for attempt in range(1, max_attempts + 1)` loop, recursing on the
number of remaining attempts; avail says which attempts reach Qdrant,
collExists whether the collection already exists there. -/
def ensureGo (avail : Nat → Bool) (collExists : Bool) :
    Nat → Nat → Nat → List Nat → BootResult
  | 0, _, _, sleeps => ⟨false, false, 0, sleeps⟩
  | remaining + 1, attempt, delay, sleeps =>
    if avail attempt then ⟨true, !collExists, attempt, sleeps⟩
    else if remaining = 0 then ⟨false, false, attempt, sleeps⟩
    else ensureGo avail collExists remaining (attempt + 1) (min (delay * 2) 10)
      (sleeps ++ [delay])

/-- pipeline.py _ensure_qdrant_collection: 10 attempts, initial delay 1,
doubled and capped at 10 after each sleep. -/
def ensure_qdrant_collection (avail : Nat → Bool) (collExists : Bool) : BootResult :=
  ensureGo avail collExists 10 1 1 []

/-! ## Payload validation (utils.py validate_document_payload) -/

/-- The required_fields list of utils.py. -/
def required_fields : List String :=
  ["doc_id", "source", "title", "uri", "text", "author", "created_at", "updated_at"]

/-- Python `payload[k]` lookup for a dict modelled as a key/value list
(values are strings; the isinstance branches of the source can then never
fire and are omitted). -/
def lookupKey (payload : List (String × String)) (k : String) : Option String :=
  (payload.find? (fun kv => kv.1 == k)).map (fun kv => kv.2)

/-- Python's `value.replace('Z', '+00:00')` — the pattern is the single
character Z, so the substitution is character-wise. -/
def pyReplaceZ (s : String) : String :=
  (s.toList.foldr (fun c acc => (if c = 'Z' then "+00:00".toList else [c]) ++ acc) []).asString

/-- utils.py validate_document_payload. isoOk models
datetime.fromisoformat succeeding on the Z-normalised value. -/
def validate_document_payload (isoOk : String → Bool)
    (payload : List (String × String)) : List String :=
  let errors := required_fields.foldl (fun errs field =>
    match lookupKey payload field with
    | none => errs ++ ["Missing required field: " ++ field]
    | some v =>
      if v = "" ∨ pyStrip v.toList = [] then
        errs ++ ["Empty value for required field: " ++ field]
      else errs) []
  ["created_at", "updated_at"].foldl (fun errs tf =>
    match lookupKey payload tf with
    | none => errs
    | some v =>
      if isoOk (pyReplaceZ v) then errs
      else errs ++ ["Invalid timestamp format for " ++ tf]) errors

/-- The dict a DocumentPayload carries, as validate_document_payload sees it. -/
def payloadOfDoc (d : Document) : List (String × String) :=
  [("doc_id", d.doc_id), ("source", d.source), ("title", d.title), ("uri", d.uri),
   ("text", d.text), ("author", d.author), ("created_at", d.created_at),
   ("updated_at", d.updated_at)]

/-! ## Specification-side accessors used by the theorems -/

/-- True when a run ends in a value returned by process_document (no
uncaught exception, no divergence). -/
def isCaught : Option (Except String (ProcResult × StoreState)) → Bool
  | some (.ok _) => true
  | _ => false

/-- The result dict of a returned run (arbitrary otherwise). -/
def procResultOf : Option (Except String (ProcResult × StoreState)) → ProcResult
  | some (.ok (res, _)) => res
  | _ => ⟨false, 0, none, none⟩

/-- The final store state of a returned run (the initial state otherwise). -/
def procStateOf (r : Option (Except String (ProcResult × StoreState)))
    (st : StoreState) : StoreState :=
  match r with
  | some (.ok (_, st')) => st'
  | _ => st

/-- Does the result's error field read "Failed to process document <id>: ..."? -/
def errMentionsDoc (res : ProcResult) (did : String) : Bool :=
  match res.error with
  | some msg => ("Failed to process document " ++ did ++ ": ").toList.isPrefixOf msg.toList
  | none => false

/-- Boolean form of the per-passage guarantees of chunk_text. -/
def goodPassage (maxTokens : Nat) (p : Passage) : Bool :=
  decide (p.token_count ≤ maxTokens) && !p.text.isEmpty
    && p.text.any (fun c => !pyIsSpace c)

/-- Are all embeddings of a batch of one dimension? -/
def allSameDim (l : List (List Int)) : Bool :=
  l.all (fun e => e.length == (l.headD []).length)

/-- A concrete stand-in for hashlib.sha256 hex digests, used to evaluate the
model on closed inputs (the pipeline only ever compares hashes for equality). -/
def testHash (s : String) : String :=
  "sha256:" ++ toString s.length ++ ":" ++ s

/-- The chunk list carried by a loop-step outcome. -/
def iterList : (List Passage) ⊕ (Int × List Passage) → List Passage
  | .inl res => res
  | .inr p => p.2

/-- The delay sequence the loop sleeps through when it starts at delay d:
each sleep uses the current delay, then the delay doubles, capped at 10. -/
def backoffSched : Nat → Nat → List Nat
  | _, 0 => []
  | d, n + 1 => d :: backoffSched (min (d * 2) 10) n

/-- All of attempts a, a+1, ..., a+n-1 fail to reach the store. -/
def allFailFrom (avail : Nat → Bool) : Nat → Nat → Bool
  | _, 0 => true
  | a, n + 1 => !avail a && allFailFrom avail (a + 1) n

/-! ## Concrete instances used to evaluate the model on closed inputs -/

/-- Default pipeline configuration (EMBEDDING_MODEL unset). -/
def cfg1 : PipelineCfg := ⟨"text-embedding-3-small"⟩

/-- A small concrete document. -/
def doc1 : Document := ⟨"d1", "notion", "T", "u", "hello", "A", "c", "u2"⟩

/-- The stored record for doc1, hash matching its current text. -/
def rec1 : DocRecord := ⟨"d1", "notion", "T", "u", "A", "c", "u2", testHash "hello", 1, false⟩

/-- Store state holding rec1 and nothing else. -/
def stA : StoreState := ⟨[rec1], [], []⟩

/-- Empty store state. -/
def st0 : StoreState := ⟨[], [], []⟩

/-- Environment in which every external call succeeds. -/
def envOkAll : Env := ⟨true, true, .ok [], none, none, true⟩

/-- Environment: embedding provider raises and the log insert also fails. -/
def envC7 : Env := ⟨true, false, .error "provider down", none, none, true⟩

/-- Environment: embedding provider raises, log insert works. -/
def envC7w : Env := ⟨true, true, .error "provider down", none, none, true⟩

/-- Environment: the content-hash lookup connection fails, all else works. -/
def envL : Env := ⟨false, true, .ok [[7]], none, none, true⟩

/-- A document with every required field empty. -/
def docE : Document := ⟨"", "", "", "", "", "", "", ""⟩

/-- Stand-in for the fromisoformat success predicate. -/
def isoStub (s : String) : Bool := s != ""

/-! ## Helper lemmas about the chunker -/

theorem charTok_window_bound (ts : List Nat) (k m : Nat) :
    (charTok.encode (((charTok.decode ts).drop k).take m)).length ≤ ts.length := by
  simp [charTok]

theorem dropLeadingWord_eq_drop (s : List Char) : ∃ k, dropLeadingWord s = s.drop k := by
  unfold dropLeadingWord
  cases h : pyFindCh ' ' s with
  | none => exact ⟨0, (s.drop_zero).symm⟩
  | some i =>
    by_cases hi : 0 < i
    · exact ⟨i + 1, by simp [hi]⟩
    · exact ⟨0, by simp [hi, s.drop_zero]⟩

theorem dropTrailingWord_eq_take (s : List Char) : ∃ m, dropTrailingWord s = s.take m := by
  unfold dropTrailingWord
  cases h : pyRFindCh ' ' s with
  | none => exact ⟨s.length, (s.take_length).symm⟩
  | some i =>
    by_cases hi : 0 < i
    · exact ⟨i, by simp [hi]⟩
    · exact ⟨s.length, by simp [hi, s.take_length]⟩

theorem pyStripLeft_head_not_space (s : List Char) (c : Char) (r : List Char)
    (h : pyStripLeft s = c :: r) : pyIsSpace c = false := by
  induction s with
  | nil => simp [pyStripLeft] at h
  | cons d ds ih =>
    by_cases hd : pyIsSpace d = true
    · exact ih (by simpa [pyStripLeft, hd] using h)
    · have h' : d :: ds = c :: r := by simpa [pyStripLeft, hd] using h
      cases h'
      simpa using hd

theorem pyStrip_any_not_space (s : List Char) (h : pyStrip s ≠ []) :
    (pyStrip s).any (fun c => !pyIsSpace c) = true := by
  unfold pyStrip at h ⊢
  cases hh : pyStripLeft ((pyStripLeft s).reverse) with
  | nil => simp [hh] at h
  | cons c r =>
    have hc := pyStripLeft_head_not_space _ c r hh
    simp only [List.any_eq_true]
    exact ⟨c, by simp, by simp [hc]⟩

theorem pySlice_window_len (tokens : List Nat) (maxT : Nat) (start : Int)
    (h0 : 0 ≤ start) (hlt : start < (tokens.length : Int)) :
    (pySlice tokens start (min (start + (maxT : Int)) (tokens.length : Int))).length
      ≤ maxT := by
  unfold pySlice pyIdx
  have h1 : ¬ start < 0 := by omega
  have h2 : ¬ (min (start + (maxT : Int)) (tokens.length : Int)) < 0 := by
    rcases le_total (start + (maxT : Int)) (tokens.length : Int) with hc | hc <;> omega
  rw [if_neg h1, if_neg h2]
  simp only [List.length_drop, List.length_take]
  rcases le_total (start + (maxT : Int)) (tokens.length : Int) with hc | hc
  · rw [min_eq_left hc]
    omega
  · rw [min_eq_right hc]
    omega

theorem chunkIter_inr (tok : Tokenizer) (tokens : List Nat) (maxT ovl : Nat)
    (hov : ovl < maxT) (start : Int) (acc : List Passage) (s' : Int) (a' : List Passage)
    (h : chunkIter tok tokens maxT ovl start acc = .inr (s', a')) :
    start < (tokens.length : Int) ∧ start + 1 ≤ s' := by
  unfold chunkIter at h
  by_cases hin : start < (tokens.length : Int)
  · rw [if_pos hin] at h
    by_cases hbr : (tokens.length : Int) - (ovl : Int) ≤
        (min (start + (maxT : Int)) (tokens.length : Int)) - (ovl : Int)
    · simp only [hbr, if_true] at h
      cases h
    · simp only [hbr, if_false] at h
      have hs : s' = (min (start + (maxT : Int)) (tokens.length : Int)) - (ovl : Int) := by
        cases h
        rfl
      rcases le_total (start + (maxT : Int)) (tokens.length : Int) with hc | hc
      · rw [min_eq_left hc] at hs
        constructor
        · exact hin
        · omega
      · rw [min_eq_right hc] at hs hbr
        omega
  · rw [if_neg hin] at h
    cases h

theorem candidate_good (tok : Tokenizer)
    (hTok : ∀ ts k m, (tok.encode (((tok.decode ts).drop k).take m)).length ≤ ts.length)
    (tokens : List Nat) (maxT : Nat) (start : Int)
    (h0 : 0 ≤ start) (hin : start < (tokens.length : Int))
    (X : List Char)
    (hX : ∃ k m, X = ((tok.decode (pySlice tokens start
      (min (start + (maxT : Int)) (tokens.length : Int)))).drop k).take m)
    (hne : pyStrip X ≠ []) :
    goodPassage maxT ⟨pyStrip X, (tok.encode X).length⟩ = true := by
  obtain ⟨k, m, rfl⟩ := hX
  unfold goodPassage
  simp only [Bool.and_eq_true, decide_eq_true_eq]
  refine ⟨⟨?_, ?_⟩, ?_⟩
  · exact le_trans (hTok _ k m) (pySlice_window_len tokens maxT start h0 hin)
  · simpa [List.isEmpty_iff] using hne
  · exact pyStrip_any_not_space _ hne

theorem chunkCand_form (tok : Tokenizer) (tokens : List Nat) (maxT : Nat) (start : Int) :
    ∃ k m, chunkCand tok tokens maxT start = ((tok.decode (pySlice tokens start
      (min (start + (maxT : Int)) (tokens.length : Int)))).drop k).take m := by
  unfold chunkCand
  by_cases h1 : 0 < start <;> by_cases h2 :
      min (start + (maxT : Int)) (tokens.length : Int) < (tokens.length : Int)
  · obtain ⟨k, hk⟩ := dropLeadingWord_eq_drop (tok.decode (pySlice tokens start
      (min (start + (maxT : Int)) (tokens.length : Int))))
    obtain ⟨m, hm⟩ := dropTrailingWord_eq_take ((tok.decode (pySlice tokens start
      (min (start + (maxT : Int)) (tokens.length : Int)))).drop k)
    exact ⟨k, m, by rw [if_pos h2, if_pos h1, hk, hm]⟩
  · obtain ⟨k, hk⟩ := dropLeadingWord_eq_drop (tok.decode (pySlice tokens start
      (min (start + (maxT : Int)) (tokens.length : Int))))
    refine ⟨k, ((tok.decode (pySlice tokens start
      (min (start + (maxT : Int)) (tokens.length : Int)))).drop k).length, ?_⟩
    rw [if_neg h2, if_pos h1, hk, List.take_length]
  · obtain ⟨m, hm⟩ := dropTrailingWord_eq_take (tok.decode (pySlice tokens start
      (min (start + (maxT : Int)) (tokens.length : Int))))
    exact ⟨0, m, by rw [if_pos h2, if_neg h1, List.drop_zero]; exact hm⟩
  · refine ⟨0, (tok.decode (pySlice tokens start
      (min (start + (maxT : Int)) (tokens.length : Int)))).length, ?_⟩
    rw [if_neg h2, if_neg h1, List.drop_zero, List.take_length]

theorem chunkAppend_all_good (tok : Tokenizer)
    (hTok : ∀ ts k m, (tok.encode (((tok.decode ts).drop k).take m)).length ≤ ts.length)
    (tokens : List Nat) (maxT : Nat) (start : Int) (acc : List Passage)
    (h0 : 0 ≤ start) (hin : start < (tokens.length : Int))
    (hacc : acc.all (goodPassage maxT) = true) :
    (chunkAppend tok tokens maxT start acc).all (goodPassage maxT) = true := by
  unfold chunkAppend
  by_cases hstrip : pyStrip (chunkCand tok tokens maxT start) = []
  · rw [if_pos hstrip]
    exact hacc
  · rw [if_neg hstrip, List.all_append, hacc]
    simpa using candidate_good tok hTok tokens maxT start h0 hin _
      (chunkCand_form tok tokens maxT start) hstrip

theorem chunkIter_all_good (tok : Tokenizer)
    (hTok : ∀ ts k m, (tok.encode (((tok.decode ts).drop k).take m)).length ≤ ts.length)
    (tokens : List Nat) (maxT ovl : Nat) (start : Int) (acc : List Passage)
    (h0 : 0 ≤ start) (hacc : acc.all (goodPassage maxT) = true) :
    (iterList (chunkIter tok tokens maxT ovl start acc)).all (goodPassage maxT) = true := by
  unfold chunkIter
  by_cases hin : start < (tokens.length : Int)
  · rw [if_pos hin]
    by_cases hbr : (tokens.length : Int) - (ovl : Int) ≤
        min (start + (maxT : Int)) (tokens.length : Int) - (ovl : Int)
    · rw [if_pos hbr]
      exact chunkAppend_all_good tok hTok tokens maxT start acc h0 hin hacc
    · rw [if_neg hbr]
      exact chunkAppend_all_good tok hTok tokens maxT start acc h0 hin hacc
  · rw [if_neg hin]
    exact hacc

theorem chunkLoop_good (tok : Tokenizer)
    (hTok : ∀ ts k m, (tok.encode (((tok.decode ts).drop k).take m)).length ≤ ts.length)
    (tokens : List Nat) (maxT ovl : Nat) (hov : ovl < maxT) :
    ∀ (fuel : Nat) (start : Int) (acc : List Passage), 0 ≤ start →
      acc.all (goodPassage maxT) = true →
      ∀ ps, chunkLoop tok tokens maxT ovl fuel start acc = some ps →
        ps.all (goodPassage maxT) = true := by
  intro fuel
  induction fuel with
  | zero =>
    intro start acc h0 hacc ps hps
    unfold chunkLoop at hps
    cases hiter : chunkIter tok tokens maxT ovl start acc with
    | inl res =>
      rw [hiter] at hps
      cases hps
      have := chunkIter_all_good tok hTok tokens maxT ovl start acc h0 hacc
      rw [hiter] at this
      exact this
    | inr p =>
      rw [hiter] at hps
      cases hps
  | succ f ih =>
    intro start acc h0 hacc ps hps
    unfold chunkLoop at hps
    cases hiter : chunkIter tok tokens maxT ovl start acc with
    | inl res =>
      rw [hiter] at hps
      cases hps
      have := chunkIter_all_good tok hTok tokens maxT ovl start acc h0 hacc
      rw [hiter] at this
      exact this
    | inr p =>
      rw [hiter] at hps
      obtain ⟨hin, hstep⟩ := chunkIter_inr tok tokens maxT ovl hov start acc p.1 p.2 hiter
      have hgood := chunkIter_all_good tok hTok tokens maxT ovl start acc h0 hacc
      rw [hiter] at hgood
      exact ih p.1 p.2 (by omega) hgood ps hps

theorem chunkLoop_ne_none (tok : Tokenizer) (tokens : List Nat) (maxT ovl : Nat)
    (hov : ovl < maxT) :
    ∀ (fuel : Nat) (start : Int) (acc : List Passage),
      (tokens.length : Int) - start ≤ (fuel : Int) →
      chunkLoop tok tokens maxT ovl fuel start acc ≠ none := by
  intro fuel
  induction fuel with
  | zero =>
    intro start acc h
    unfold chunkLoop
    cases hiter : chunkIter tok tokens maxT ovl start acc with
    | inl res => simp
    | inr p =>
      obtain ⟨hin, _⟩ := chunkIter_inr tok tokens maxT ovl hov start acc p.1 p.2 hiter
      simp at h
      omega
  | succ f ih =>
    intro start acc h
    unfold chunkLoop
    cases hiter : chunkIter tok tokens maxT ovl start acc with
    | inl res => simp
    | inr p =>
      obtain ⟨hin, hstep⟩ := chunkIter_inr tok tokens maxT ovl hov start acc p.1 p.2 hiter
      apply ih
      push_cast at h ⊢
      omega

theorem chunk_text_ne_none (tok : Tokenizer) (text : List Char) (maxT ovl : Nat)
    (hov : ovl < maxT) : chunk_text tok text maxT ovl ≠ none := by
  unfold chunk_text
  by_cases h1 : pyStrip text = []
  · simp [h1]
  · rw [if_neg h1]
    by_cases h2 : (tok.encode text).length ≤ maxT
    · simp [h2]
    · rw [if_neg h2]
      apply chunkLoop_ne_none tok _ maxT ovl hov
      push_cast
      omega

/-! ## Claim theorems: the chunker (C2, C3, C4) -/

/-- C2, counterexample: the claim "for every text t whose token length is at
most max_tokens, chunk returns exactly one passage whose text equals t" is
false at t = " ": its token length (1) is at most 500, yet chunk_text
returns zero passages, because whitespace-only text is returned as the empty
chunk list before tokenization. -/
theorem claim2_counterexample :
    (charTok.encode (" ".toList)).length ≤ 500 ∧
    chunk_text charTok (" ".toList) 500 50 = some [] :=
  ⟨by decide, by rfl⟩

/-- C2 (amended): for every text that is non-empty after stripping
whitespace and whose token length is at most max_tokens, chunk_text returns
exactly one passage whose text is the whole input and whose token_count is
the input's token length. -/
theorem claim2_single_chunk (tok : Tokenizer) (maxT ovl : Nat) (text : List Char)
    (hne : pyStrip text ≠ []) (hlen : (tok.encode text).length ≤ maxT) :
    chunk_text tok text maxT ovl = some [⟨text, (tok.encode text).length⟩] := by
  unfold chunk_text
  rw [if_neg hne, if_pos hlen]

/-- Witness for C2 at text "hi", max_tokens 500, overlap 50. -/
theorem claim2_witness :
    pyStrip ("hi".toList) ≠ [] ∧ (charTok.encode ("hi".toList)).length ≤ 500 ∧
    chunk_text charTok ("hi".toList) 500 50 =
      some [⟨"hi".toList, (charTok.encode ("hi".toList)).length⟩] :=
  ⟨by decide, by decide, claim2_single_chunk charTok 500 50 ("hi".toList) (by decide) (by decide)⟩

/-- C3: for text whose token length exceeds max_tokens, with
0 ≤ overlap_tokens < max_tokens and a tokenizer for which re-encoding a
contiguous piece of decoded text never yields more tokens than the decoded
window held, every returned passage has token_count at most max_tokens and
non-empty, non-whitespace text. -/
theorem claim3_passage_bounds (tok : Tokenizer)
    (hTok : ∀ ts k m, (tok.encode (((tok.decode ts).drop k).take m)).length ≤ ts.length)
    (maxT ovl : Nat) (hov : ovl < maxT) (text : List Char)
    (hlen : maxT < (tok.encode text).length)
    (ps : List Passage) (hps : chunk_text tok text maxT ovl = some ps) :
    ps.all (goodPassage maxT) = true := by
  unfold chunk_text at hps
  by_cases h1 : pyStrip text = []
  · rw [if_pos h1] at hps
    cases hps
    rfl
  · rw [if_neg h1, if_neg (by omega : ¬ (tok.encode text).length ≤ maxT)] at hps
    exact chunkLoop_good tok hTok _ maxT ovl hov _ 0 [] (by omega) rfl ps hps

/-- Witness for C3 at text "ab cd", max_tokens 2, overlap 1: the three
returned passages all satisfy the bound and non-emptiness. -/
theorem claim3_witness :
    (1 : Nat) < 2 ∧ 2 < (charTok.encode ("ab cd".toList)).length ∧
    ([⟨"ab".toList, 2⟩, ⟨"c".toList, 2⟩, ⟨"cd".toList, 2⟩] : List Passage).all
      (goodPassage 2) = true :=
  ⟨by decide, by decide,
    claim3_passage_bounds charTok charTok_window_bound 2 1 (by decide) ("ab cd".toList)
      (by decide) _ (by decide)⟩

/-- C4 is false of the code: with overlap_tokens = max_tokens = 1 on the
two-token text "ab" the loop never terminates — start stays at 0, the break
condition start >= len(tokens) - overlap_tokens (0 >= 1) never holds, and
the same chunk is appended forever: the loop exhausts any amount of fuel
(first conjunct), in particular the fuel chunk_text allots (second
conjunct). The repository's own test (test_chunk_long_text, max_tokens=50
with the default overlap_tokens=50) runs this very configuration. -/
theorem claim4_infinite_loop :
    (∀ (fuel : Nat) (acc : List Passage),
      chunkLoop charTok (charTok.encode ("ab".toList)) 1 1 fuel 0 acc = none) ∧
    chunk_text charTok ("ab".toList) 1 1 = none := by
  constructor
  · intro fuel
    induction fuel with
    | zero => intro acc; rfl
    | succ f ih =>
      intro acc
      have hstep : chunkLoop charTok (charTok.encode ("ab".toList)) 1 1 (f + 1) 0 acc =
          chunkLoop charTok (charTok.encode ("ab".toList)) 1 1 f 0
            (acc ++ [⟨['a'], 1⟩]) := rfl
      rw [hstep]
      exact ih _
  · rfl

theorem firstDimMismatch_none_iff (dim : Nat) (l : List (List Int)) :
    firstDimMismatch dim l = none ↔ l.all (fun e => e.length == dim) = true := by
  induction l with
  | nil => simp [firstDimMismatch]
  | cons e es ih =>
    by_cases he : e.length ≠ dim
    · simp [firstDimMismatch, he]
    · simp only [firstDimMismatch, if_neg he, List.all_cons, Bool.and_eq_true,
        Option.map_eq_none']
      constructor
      · intro h
        exact ⟨by simpa using not_not.mp he, ih.mp h⟩
      · intro h
        exact ih.mpr h.2

/-! ## Claim theorem: the embedding client (C5) -/

/-- C5: for a non-empty batch, get_embedding returns the provider's
embeddings unchanged exactly when the response length matches the input
length and all embeddings share one dimension (otherwise it raises); and
when the batch is internally consistent but its dimension differs from the
model's declared default, the call still succeeds and only logs a warning. -/
theorem claim5_embedding_validation {τ : Type} (texts : List τ) (embs : List (List Int))
    (model : String) (hne : texts ≠ []) :
    ((get_embedding texts (.ok embs) model).result = .ok embs ↔
      (embs.length = texts.length ∧ allSameDim embs = true)) ∧
    ((embs.length = texts.length ∧ allSameDim embs = true ∧
        expected_dims model ≠ none ∧
        expected_dims model ≠ some (embs.headD []).length) →
      ((get_embedding texts (.ok embs) model).result = .ok embs ∧
        (get_embedding texts (.ok embs) model).warnings ≠ [])) := by
  have hni : ¬ (texts.isEmpty = true) := by
    cases texts with
    | nil => exact absurd rfl hne
    | cons a as => simp
  unfold get_embedding
  rw [if_neg hni]
  dsimp only
  by_cases hlen : embs.length = texts.length
  · rw [if_neg (not_not_intro hlen)]
    cases embs with
    | nil =>
      exact absurd (List.length_eq_zero.mp hlen.symm) hne
    | cons e0 rest =>
      dsimp only
      cases hfd : firstDimMismatch e0.length (e0 :: rest) with
      | some i =>
        have hall : ¬ ((e0 :: rest).all (fun e => e.length == e0.length) = true) := by
          intro hall
          rw [(firstDimMismatch_none_iff _ _).mpr hall] at hfd
          cases hfd
        constructor
        · simp [allSameDim, hall]
        · intro hconj
          exact absurd (by simpa [allSameDim] using hconj.2.1) hall
      | none =>
        have hall : (e0 :: rest).all (fun e => e.length == e0.length) = true :=
          (firstDimMismatch_none_iff _ _).mp hfd
        constructor
        · simp [allSameDim, hall, hlen]
        · rintro ⟨-, -, hnn, hnd⟩
          cases hex : expected_dims model with
          | none => exact absurd hex hnn
          | some d =>
            rw [hex] at hnd
            have hd : e0.length ≠ d := by
              intro h
              exact hnd (by simpa using h.symm ▸ rfl)
            refine ⟨rfl, ?_⟩
            simp [hd]
  · rw [if_pos hlen]
    constructor
    · simp [hlen]
    · rintro ⟨h, -⟩
      exact absurd h hlen

/-- Witness for C5: batch of two texts, two 1-dimensional embeddings, model
"text-embedding-3-small" (declared 1536): success with a warning. -/
theorem claim5_witness :
    ([0, 1] : List Nat) ≠ [] ∧
    (((get_embedding ([0, 1] : List Nat) (.ok [[5], [6]]) "text-embedding-3-small").result =
        .ok [[5], [6]] ↔
      (([[5], [6]] : List (List Int)).length = ([0, 1] : List Nat).length ∧
        allSameDim [[5], [6]] = true)) ∧
    ((([[5], [6]] : List (List Int)).length = ([0, 1] : List Nat).length ∧
        allSameDim [[5], [6]] = true ∧
        expected_dims "text-embedding-3-small" ≠ none ∧
        expected_dims "text-embedding-3-small" ≠
          some (([[5], [6]] : List (List Int)).headD []).length) →
      ((get_embedding ([0, 1] : List Nat) (.ok [[5], [6]]) "text-embedding-3-small").result =
          .ok [[5], [6]] ∧
        (get_embedding ([0, 1] : List Nat) (.ok [[5], [6]])
          "text-embedding-3-small").warnings ≠ []))) :=
  ⟨by decide, claim5_embedding_validation [0, 1] [[5], [6]] "text-embedding-3-small" (by decide)⟩

/-! ## Bootstrap retry lemmas (C8) -/

theorem backoffSched_one : ∀ n < 10, backoffSched 1 n =
    List.take n [1, 2, 4, 8, 10, 10, 10, 10, 10] := by
  decide

theorem allFailFrom_spec (avail : Nat → Bool) :
    ∀ (n a : Nat), allFailFrom avail a n = true →
      ∀ j, a ≤ j → j < a + n → avail j = false := by
  intro n
  induction n with
  | zero => intro a _ j _ _; omega
  | succ m ih =>
    intro a h j hj1 hj2
    simp only [allFailFrom, Bool.and_eq_true] at h
    by_cases hja : j = a
    · subst hja
      simpa using h.1
    · exact ih (a + 1) h.2 j (by omega) (by omega)

theorem ensureGo_spec (avail : Nat → Bool) (collExists : Bool) :
    ∀ (remaining attempt delay : Nat) (sleeps : List Nat), 1 ≤ remaining →
      (attempt ≤ (ensureGo avail collExists remaining attempt delay sleeps).attemptsMade ∧
        (ensureGo avail collExists remaining attempt delay sleeps).attemptsMade
          ≤ attempt + remaining - 1) ∧
      (ensureGo avail collExists remaining attempt delay sleeps).sleeps =
        sleeps ++ backoffSched delay
          ((ensureGo avail collExists remaining attempt delay sleeps).attemptsMade - attempt) ∧
      ((ensureGo avail collExists remaining attempt delay sleeps).ok = false →
        (ensureGo avail collExists remaining attempt delay sleeps).attemptsMade =
          attempt + remaining - 1 ∧
        allFailFrom avail attempt remaining = true) ∧
      ((ensureGo avail collExists remaining attempt delay sleeps).ok = true →
        (ensureGo avail collExists remaining attempt delay sleeps).created = !collExists ∧
        avail (ensureGo avail collExists remaining attempt delay sleeps).attemptsMade = true) := by
  intro remaining
  induction remaining with
  | zero => intro attempt delay sleeps h; omega
  | succ r ih =>
    intro attempt delay sleeps h
    cases ha : avail attempt with
    | true =>
      have e1 : ensureGo avail collExists (r + 1) attempt delay sleeps =
          ⟨true, !collExists, attempt, sleeps⟩ := by
        simp [ensureGo, ha]
      rw [e1]
      dsimp only
      refine ⟨⟨le_refl _, by omega⟩, by simp [backoffSched], ?_, ?_⟩
      · intro hok
        cases hok
      · intro _
        exact ⟨rfl, ha⟩
    | false =>
      by_cases hr : r = 0
      · subst hr
        have e1 : ensureGo avail collExists (0 + 1) attempt delay sleeps =
            ⟨false, false, attempt, sleeps⟩ := by
          simp [ensureGo, ha]
        rw [e1]
        dsimp only
        refine ⟨⟨le_refl _, by omega⟩, by simp [backoffSched], ?_, ?_⟩
        · intro _
          exact ⟨by omega, by simp [allFailFrom, ha]⟩
        · intro hok
          cases hok
      · have e1 : ensureGo avail collExists (r + 1) attempt delay sleeps =
            ensureGo avail collExists r (attempt + 1) (min (delay * 2) 10)
              (sleeps ++ [delay]) := by
          simp [ensureGo, ha, hr]
        rw [e1]
        obtain ⟨⟨hlo, hhi⟩, hsl, hfail, hokk⟩ :=
          ih (attempt + 1) (min (delay * 2) 10) (sleeps ++ [delay]) (by omega)
        refine ⟨⟨by omega, by omega⟩, ?_, ?_, hokk⟩
        · rw [hsl]
          have hd : (ensureGo avail collExists r (attempt + 1) (min (delay * 2) 10)
              (sleeps ++ [delay])).attemptsMade - attempt =
              ((ensureGo avail collExists r (attempt + 1) (min (delay * 2) 10)
                (sleeps ++ [delay])).attemptsMade - (attempt + 1)) + 1 := by omega
          rw [hd]
          simp [backoffSched]
        · intro hok
          obtain ⟨ham, hall⟩ := hfail hok
          exact ⟨by omega, by simp [allFailFrom, ha, hall]⟩

/-! ## Claim theorem: vector-store bootstrap (C8) -/

/-- C8: collection bootstrap makes between 1 and 10 attempts; the sleeps
between consecutive attempts follow 1, 2, 4, 8 then cap at 10; it raises
exactly when all 10 attempts fail (and then the 10th attempt was made); on
success it created the collection exactly when it did not already exist. -/
theorem claim8_bootstrap (avail : Nat → Bool) (collExists : Bool) :
    1 ≤ (ensure_qdrant_collection avail collExists).attemptsMade ∧
    (ensure_qdrant_collection avail collExists).attemptsMade ≤ 10 ∧
    (ensure_qdrant_collection avail collExists).sleeps =
      List.take ((ensure_qdrant_collection avail collExists).attemptsMade - 1)
        [1, 2, 4, 8, 10, 10, 10, 10, 10] ∧
    ((ensure_qdrant_collection avail collExists).ok = false ↔
      allFailFrom avail 1 10 = true) ∧
    ((ensure_qdrant_collection avail collExists).ok = false →
      (ensure_qdrant_collection avail collExists).attemptsMade = 10) ∧
    ((ensure_qdrant_collection avail collExists).ok = true →
      (ensure_qdrant_collection avail collExists).created = !collExists ∧
      avail (ensure_qdrant_collection avail collExists).attemptsMade = true) := by
  obtain ⟨⟨hlo, hhi⟩, hsl, hfail, hok⟩ :=
    ensureGo_spec avail collExists 10 1 1 [] (by omega)
  have hunf : ensure_qdrant_collection avail collExists =
      ensureGo avail collExists 10 1 1 [] := rfl
  rw [hunf]
  refine ⟨hlo, by omega, ?_, ?_, ?_, hok⟩
  · rw [hsl, List.nil_append]
    exact backoffSched_one _ (by omega)
  · constructor
    · intro hf
      exact (hfail hf).2
    · intro hall
      cases hok2 : (ensureGo avail collExists 10 1 1 []).ok with
      | false => rfl
      | true =>
        obtain ⟨-, hav⟩ := hok hok2
        have := allFailFrom_spec avail 10 1 hall
          (ensureGo avail collExists 10 1 1 []).attemptsMade hlo (by omega)
        rw [this] at hav
        cases hav
  · intro hf
    have := (hfail hf).1
    omega

/-- Witness for C8: store reachable from attempt 3 on, collection absent —
the conclusion instantiated there. -/
theorem claim8_witness :
    1 ≤ (ensure_qdrant_collection (fun n => n == 3) false).attemptsMade ∧
    (ensure_qdrant_collection (fun n => n == 3) false).attemptsMade ≤ 10 ∧
    (ensure_qdrant_collection (fun n => n == 3) false).sleeps =
      List.take ((ensure_qdrant_collection (fun n => n == 3) false).attemptsMade - 1)
        [1, 2, 4, 8, 10, 10, 10, 10, 10] ∧
    ((ensure_qdrant_collection (fun n => n == 3) false).ok = false ↔
      allFailFrom (fun n => n == 3) 1 10 = true) ∧
    ((ensure_qdrant_collection (fun n => n == 3) false).ok = false →
      (ensure_qdrant_collection (fun n => n == 3) false).attemptsMade = 10) ∧
    ((ensure_qdrant_collection (fun n => n == 3) false).ok = true →
      (ensure_qdrant_collection (fun n => n == 3) false).created = !false ∧
      (fun n => n == 3) (ensure_qdrant_collection (fun n => n == 3) false).attemptsMade
        = true) :=
  claim8_bootstrap (fun n => n == 3) false

/-! ## Claim theorems: the ingestion pipeline (C1, C6, C7, C9, C10) -/

/-- C1: when force_reindex is false, the metadata store is reachable, and
the stored record's content_hash equals the recomputed fingerprint of the
document's text, process_document returns success with zero chunks and the
skip message, appends exactly one `skipped` log entry, and leaves the
documents table and the vector store untouched. -/
theorem claim1_skip_path (hashFn : String → String) (tok : Tokenizer) (cfg : PipelineCfg)
    (env : Env) (doc : Document) (st : StoreState) (r : DocRecord)
    (hlk : env.lookupOk = true) (hlog : env.logOk = true)
    (hfind : findDocRecord st.documents doc.doc_id = some r)
    (hmatch : r.content_hash = hashFn doc.text) :
    process_document hashFn tok cfg env (.payload doc) false st =
      some (.ok (⟨true, 0, some "Document unchanged, skipped processing", none⟩,
        { st with ingestion_log := st.ingestion_log ++
          [⟨doc.doc_id, "skipped", "Document content unchanged, skipping processing"⟩] })) := by
  have hunch : is_document_unchanged env st doc.doc_id (hashFn doc.text) = true := by
    simp [is_document_unchanged, hlk, hfind, hmatch]
  have ht : pyAttr (.payload doc) "text" = .ok doc.text := rfl
  have hd : pyAttr (.payload doc) "doc_id" = .ok doc.doc_id := rfl
  unfold process_document processBody
  rw [ht, hd]
  dsimp only
  rw [hunch]
  simp [log_ingestion_event, hlog]

/-- Witness for C1: doc1 is stored in stA with a matching hash; the call
skips, logging one skipped event and writing nothing else. -/
theorem claim1_witness :
    envOkAll.lookupOk = true ∧ envOkAll.logOk = true ∧
    findDocRecord stA.documents doc1.doc_id = some rec1 ∧
    rec1.content_hash = testHash doc1.text ∧
    process_document testHash charTok cfg1 envOkAll (.payload doc1) false stA =
      some (.ok (⟨true, 0, some "Document unchanged, skipped processing", none⟩,
        { stA with ingestion_log := stA.ingestion_log ++
          [⟨doc1.doc_id, "skipped", "Document content unchanged, skipping processing"⟩] })) :=
  ⟨rfl, rfl, rfl, rfl,
    claim1_skip_path testHash charTok cfg1 envOkAll doc1 stA rec1 rfl rfl rfl rfl⟩

/-- C10: when the content-hash lookup connection fails,
_is_document_unchanged answers false and the whole ingestion call behaves
exactly as a force_reindex run: deduplication fails open and the document is
re-chunked, re-embedded and re-persisted instead of the call returning an
error. -/
theorem claim10_fail_open (hashFn : String → String) (tok : Tokenizer) (cfg : PipelineCfg)
    (env : Env) (doc : Document) (st : StoreState) (h : env.lookupOk = false) :
    is_document_unchanged env st doc.doc_id (hashFn doc.text) = false ∧
    process_document hashFn tok cfg env (.payload doc) false st =
      process_document hashFn tok cfg env (.payload doc) true st := by
  have h1 : is_document_unchanged env st doc.doc_id (hashFn doc.text) = false := by
    simp [is_document_unchanged, h]
  refine ⟨h1, ?_⟩
  have ht : pyAttr (.payload doc) "text" = .ok doc.text := rfl
  have hd : pyAttr (.payload doc) "doc_id" = .ok doc.doc_id := rfl
  unfold process_document processBody
  rw [ht, hd]
  dsimp only
  rw [h1]
  simp

/-- Witness for C10 in envL (lookup connection down, provider answering one
1-vector): dedup is bypassed just as under force_reindex. -/
theorem claim10_witness :
    envL.lookupOk = false ∧
    (is_document_unchanged envL stA doc1.doc_id (testHash doc1.text) = false ∧
      process_document testHash charTok cfg1 envL (.payload doc1) false stA =
        process_document testHash charTok cfg1 envL (.payload doc1) true stA) :=
  ⟨rfl, claim10_fail_open testHash charTok cfg1 envL doc1 stA rfl⟩

/-- C6 is false of the code: process_document performs no payload
validation. The all-empty document docE fails validate_document_payload
(which ingestion never calls), yet the ingestion call computes the
fingerprint, runs the pipeline to completion, writes a documents row and a
`processed` log entry, and returns success — it never fails fast with a
validation error. -/
theorem claim6_no_validation :
    validate_document_payload isoStub (payloadOfDoc docE) ≠ [] ∧
    process_document testHash charTok cfg1 envOkAll (.payload docE) false st0 =
      some (.ok (⟨true, 0, some "Successfully processed 0 chunks", none⟩,
        ⟨[⟨"", "", "", "", "", "", "", testHash "", 0, false⟩],
         [⟨"", "processed", "Successfully processed 0 chunks"⟩], []⟩)) :=
  ⟨by decide, by rfl⟩

/-- C9 is false of the code as an executable path: with a non-deleted
record for "d1" present and every store call succeeding, the reindex call
does not re-run the pipeline — get_document_by_id returns a dict without
the text column, process_document's first attribute access raises, and the
handler's own f-string access raises again, escaping as an HTTP 500. -/
theorem claim9_reindex_crash :
    (get_document_by_id envOkAll stA "d1").isSome = true ∧
    reindex_document testHash charTok cfg1 envOkAll "d1" stA =
      (.httpError 500
        "Re-indexing failed: AttributeError: 'dict' object has no attribute 'doc_id'",
       stA) :=
  ⟨rfl, rfl⟩

theorem isPrefixOf_self_append {α : Type} [BEq α] [LawfulBEq α] (l t : List α) :
    l.isPrefixOf (l ++ t) = true := by
  induction l with
  | nil => simp [List.isPrefixOf]
  | cons a as ih => simp [List.isPrefixOf, ih]

theorem caught_error_facts (env : Env) (did : String) (st stAt : StoreState) (e : String)
    (hlog : stAt.ingestion_log = st.ingestion_log)
    (r : Option (Except String (ProcResult × StoreState)))
    (hr : r = some (.ok (⟨false, 0, none,
        some ("Failed to process document " ++ did ++ ": " ++ e)⟩,
      log_ingestion_event env stAt did "error"
        ("Failed to process document " ++ did ++ ": " ++ e)))) :
    isCaught r = true ∧
    ((procResultOf r).success = false →
      (procResultOf r).chunks_processed = 0 ∧
      errMentionsDoc (procResultOf r) did = true ∧
      (env.logOk = true →
        (procStateOf r st).ingestion_log =
          st.ingestion_log ++ [⟨did, "error", ((procResultOf r).error.getD "")⟩])) := by
  subst hr
  refine ⟨rfl, fun _ => ⟨rfl, ?_, fun hlogOk => ?_⟩⟩
  · show (("Failed to process document " ++ did ++ ": ").toList.isPrefixOf
      (("Failed to process document " ++ did ++ ": " ++ e).toList)) = true
    rw [show ("Failed to process document " ++ did ++ ": " ++ e).toList =
      ("Failed to process document " ++ did ++ ": ").toList ++ e.toList from rfl]
    exact isPrefixOf_self_append _ _
  · simp [procStateOf, procResultOf, log_ingestion_event, hlogOk, hlog]

/-- C7 (amended): for a DocumentPayload, every run of process_document
returns a value — exceptions raised at any step (provider call, response
validation, vector upsert, metadata upsert) are caught, never propagated,
and never diverge; when the run failed, the result is the structured
failure {success = false, chunks_processed = 0, error mentioning the
document id}, and the `error` log entry carrying that message is appended
exactly when the log write itself succeeds. -/
theorem claim7_caught (hashFn : String → String) (tok : Tokenizer) (cfg : PipelineCfg)
    (env : Env) (doc : Document) (force : Bool) (st : StoreState) :
    isCaught (process_document hashFn tok cfg env (.payload doc) force st) = true ∧
    ((procResultOf (process_document hashFn tok cfg env (.payload doc) force st)).success
        = false →
      (procResultOf (process_document hashFn tok cfg env (.payload doc) force st)).chunks_processed = 0 ∧
      errMentionsDoc (procResultOf (process_document hashFn tok cfg env (.payload doc) force st))
        doc.doc_id = true ∧
      (env.logOk = true →
        (procStateOf (process_document hashFn tok cfg env (.payload doc) force st)
            st).ingestion_log =
          st.ingestion_log ++ [⟨doc.doc_id, "error",
            ((procResultOf (process_document hashFn tok cfg env
              (.payload doc) force st)).error.getD "")⟩])) := by
  have ht : pyAttr (.payload doc) "text" = .ok doc.text := rfl
  have hd : pyAttr (.payload doc) "doc_id" = .ok doc.doc_id := rfl
  obtain ⟨chunks, hch⟩ : ∃ cs, chunk_text tok doc.text.toList 500 50 = some cs := by
    have hnn := chunk_text_ne_none tok doc.text.toList 500 50 (by omega)
    cases hcc : chunk_text tok doc.text.toList 500 50 with
    | none => exact absurd hcc hnn
    | some cs => exact ⟨cs, rfl⟩
  unfold process_document processBody
  rw [ht, hd]
  dsimp only
  by_cases hskip : (!force && is_document_unchanged env st doc.doc_id (hashFn doc.text)) = true
  · rw [if_pos hskip]
    simp [isCaught, procResultOf]
  · rw [if_neg hskip, hch]
    dsimp only
    cases hE : (get_embedding (List.map Passage.text chunks) env.providerResp
        cfg.embedding_model).result with
    | error e =>
      dsimp only
      exact caught_error_facts env doc.doc_id st st e rfl _ rfl
    | ok embs =>
      dsimp only
      cases hU : env.upsertErr with
      | some e =>
        dsimp only
        exact caught_error_facts env doc.doc_id st st e rfl _ rfl
      | none =>
        dsimp only
        unfold update_document_metadata
        cases hM : env.metaWriteErr with
        | some e =>
          dsimp only
          exact caught_error_facts env doc.doc_id st
            { st with points := upsertPoints st.points (buildPoints doc chunks embs) } e rfl _ rfl
        | none =>
          dsimp only
          simp [isCaught, procResultOf]

/-- C7, counterexample to the claim as stated: with the provider raising
and the log insert also failing (envC7), the exception is caught and the
structured failure is returned, but no `error` ingestion-log entry is
appended — the final state still has an empty log, because
_log_ingestion_event swallows its own insert failure. -/
theorem claim7_counterexample :
    st0.ingestion_log = [] ∧
    process_document testHash charTok cfg1 envC7 (.payload doc1) false st0 =
      some (.ok (⟨false, 0, none,
        some "Failed to process document d1: provider down"⟩, st0)) :=
  ⟨rfl, rfl⟩

/-- Witness for C7 in envC7w (provider raising, log write working): the
failure path is exercised and the conclusion holds there. -/
theorem claim7_witness :
    isCaught (process_document testHash charTok cfg1 envC7w (.payload doc1) false st0)
      = true ∧
    ((procResultOf (process_document testHash charTok cfg1 envC7w
        (.payload doc1) false st0)).success = false →
      (procResultOf (process_document testHash charTok cfg1 envC7w
        (.payload doc1) false st0)).chunks_processed = 0 ∧
      errMentionsDoc (procResultOf (process_document testHash charTok cfg1 envC7w
        (.payload doc1) false st0)) doc1.doc_id = true ∧
      (envC7w.logOk = true →
        (procStateOf (process_document testHash charTok cfg1 envC7w
            (.payload doc1) false st0) st0).ingestion_log =
          st0.ingestion_log ++ [⟨doc1.doc_id, "error",
            ((procResultOf (process_document testHash charTok cfg1 envC7w
              (.payload doc1) false st0)).error.getD "")⟩])) :=
  claim7_caught testHash charTok cfg1 envC7w doc1 false st0
